import Mathlib

/-!
Verification development for the async-acme ACME client
(crates acme_core and async_acme).

We give a shallow embedding of the data model and the signed-request
engine: the serde JSON data model, the DTOs of acme_core/src/dto.rs,
the ring-backed crypto export of async_acme/src/crypto/mod.rs, the
protected-header/JWS construction of async_acme/src/directory.rs, and
the response handling of async_acme/src/server.rs, and prove the
specified properties about them.
-/

namespace AsyncAcme

/-! ## JSON data model

Models serde's data model: serialization targets a JSON tree whose
objects are ordered field lists (serde emits fields in declaration /
call order), and deserialization reads fields back by name.
-/

inductive Json where
  | null : Json
  | bool (b : Bool) : Json
  | num (n : Int) : Json
  | str (s : String) : Json
  | arr (xs : List Json) : Json
  | obj (fields : List (String × Json)) : Json
deriving Repr

def lookupField : List (String × Json) → String → Option Json
  | [], _ => none
  | (k, v) :: rest, name => if k = name then some v else lookupField rest name

/-- Field lookup on a JSON object (first occurrence wins), `none` on
non-objects and missing fields. -/
def Json.getField : Json → String → Option Json
  | .obj fs, name => lookupField fs name
  | _, _ => none

/-- The field names of a JSON object, in serialization order. -/
def Json.keys : Json → List String
  | .obj fs => fs.map (fun kv => kv.1)
  | _ => []

def hexDigit (n : Nat) : Char :=
  "0123456789abcdef".toList.getD n '0'

def hex4 (n : Nat) : String :=
  String.mk [hexDigit (n / 4096 % 16), hexDigit (n / 256 % 16),
             hexDigit (n / 16 % 16), hexDigit (n % 16)]

/-- JSON string escaping as serde_json performs it: quote, backslash and
control characters are escaped, everything else passes through. -/
def jsonEscapeChar (c : Char) : String :=
  if c = '"' then "\\\""
  else if c = '\\' then "\\\\"
  else if c = Char.ofNat 8 then "\\b"
  else if c = Char.ofNat 12 then "\\f"
  else if c = '\n' then "\\n"
  else if c = '\r' then "\\r"
  else if c = '\t' then "\\t"
  else if c.toNat < 32 then "\\u" ++ hex4 c.toNat
  else String.singleton c

def jsonEscape (s : String) : String :=
  String.join (s.toList.map jsonEscapeChar)

mutual

/-- Compact JSON rendering, as serde_json::to_vec produces (no spaces). -/
def Json.render : Json → String
  | .null => "null"
  | .bool true => "true"
  | .bool false => "false"
  | .num n => toString n
  | .str s => "\"" ++ jsonEscape s ++ "\""
  | .arr xs => "[" ++ renderElems xs ++ "]"
  | .obj fs => "\x7b" ++ renderFields fs ++ "\x7d"

def renderElems : List Json → String
  | [] => ""
  | [x] => Json.render x
  | x :: y :: rest => Json.render x ++ "," ++ renderElems (y :: rest)

def renderFields : List (String × Json) → String
  | [] => ""
  | [(k, v)] => "\"" ++ jsonEscape k ++ "\":" ++ Json.render v
  | (k, v) :: f :: rest =>
      "\"" ++ jsonEscape k ++ "\":" ++ Json.render v ++ "," ++ renderFields (f :: rest)

end

/-! ## UTF-8 and base64url (no padding)

Models the byte level of serde_json::to_vec (UTF-8 bytes of the rendered
JSON) and of the base64 crate's URL_SAFE_NO_PAD configuration used
throughout the client.
-/

def charUtf8 (c : Char) : List Nat :=
  let n := c.toNat
  if n < 128 then [n]
  else if n < 2048 then
    [192 + n / 64, 128 + n % 64]
  else if n < 65536 then
    [224 + n / 4096, 128 + n / 64 % 64, 128 + n % 64]
  else
    [240 + n / 262144, 128 + n / 4096 % 64, 128 + n / 64 % 64, 128 + n % 64]

def utf8Bytes (s : String) : List Nat :=
  s.toList.flatMap charUtf8

/-- The base64url alphabet (RFC 4648 §5). -/
def b64Char (n : Nat) : Char :=
  "ABCDEFGHIJKLMNOPQRSTUVWXYZabcdefghijklmnopqrstuvwxyz0123456789-_".toList.getD n 'A'

def b64Chars : List Nat → List Char
  | [] => []
  | [a] => [b64Char (a / 4 % 64), b64Char (a % 4 * 16)]
  | [a, b] => [b64Char (a / 4 % 64), b64Char (a % 4 * 16 + b / 16 % 16),
               b64Char (b % 16 * 4)]
  | a :: b :: c :: rest =>
      b64Char (a / 4 % 64) :: b64Char (a % 4 * 16 + b / 16 % 16) ::
      b64Char (b % 16 * 4 + c / 64 % 4) :: b64Char (c % 64) :: b64Chars rest

/-- base64::encode_config(_, base64::URL_SAFE_NO_PAD). -/
def base64UrlNoPad (bytes : List Nat) : String :=
  String.mk (b64Chars bytes)

theorem b64Chars_length_of_mul3 (k : Nat) :
    ∀ bs : List Nat, bs.length = 3 * k → (b64Chars bs).length = 4 * k := by
  induction k with
  | zero =>
      intro bs h
      have : bs = [] := List.eq_nil_of_length_eq_zero (by simpa using h)
      simp [this, b64Chars]
  | succ n ih =>
      intro bs h
      match bs with
      | [] => exact absurd h (by simp only [List.length_nil, List.length_cons]; omega)
      | [a] => exact absurd h (by simp only [List.length_nil, List.length_cons]; omega)
      | [a, b] => exact absurd h (by simp only [List.length_nil, List.length_cons]; omega)
      | a :: b :: c :: rest =>
          have hrest : rest.length = 3 * n := by
            simp [List.length] at h; omega
          simp [b64Chars, ih rest hrest]
          omega

/-! ## Uri

acme_core/src/dto.rs wraps http::Uri. The http crate is an external
collaborator; we model a URI as its rendered string form, with the
validity checks exercised by the client: the empty string and strings
containing a space are rejected by the parser, and a parsed URI renders
back to the string it was parsed from.
-/

def validUriString (s : String) : Bool :=
  !(s = "") && !(s.toList.contains ' ')

def Uri : Type := { s : String // validUriString s = true }

instance : DecidableEq Uri :=
  inferInstanceAs (DecidableEq { s : String // validUriString s = true })

def Uri.val (u : Uri) : String := u.1

/-- Uri::try_from (TryFrom<&str> / TryFrom<String> in dto.rs). -/
def Uri.tryFrom (s : String) : Option Uri :=
  if h : validUriString s = true then some ⟨s, h⟩ else none

/-- Serialize for Uri: serializer.serialize_str(&self.0.to_string()). -/
def Uri.toJson (u : Uri) : Json := Json.str u.val

/-- Deserialize for Uri (UriVisitor): expects a string and parses it. -/
def Uri.fromJson : Json → Option Uri
  | Json.str s => Uri.tryFrom s
  | _ => none

theorem Uri.tryFrom_val (u : Uri) : Uri.tryFrom u.val = some u := by
  simp [Uri.tryFrom, Uri.val, u.2]

theorem uriRoundtrip (u : Uri) : Uri.fromJson u.toJson = some u := by
  simp [Uri.toJson, Uri.fromJson, Uri.tryFrom_val]

/-! ## serde field combinators

Models serde_derive field handling: a field of type Option is missing-ok
(missing and null both give None); a field with serde(default) falls back
to the default when missing; any other field is required.
-/

def parseString : Json → Option String
  | Json.str s => some s
  | _ => none

def parseBool : Json → Option Bool
  | Json.bool b => some b
  | _ => none

def parseListAux (p : Json → Option α) : List Json → Option (List α)
  | [] => some []
  | x :: xs =>
      match p x, parseListAux p xs with
      | some a, some rest => some (a :: rest)
      | _, _ => none

def parseList (p : Json → Option α) : Json → Option (List α)
  | Json.arr xs => parseListAux p xs
  | _ => none

def getReqField (j : Json) (name : String) (p : Json → Option α) : Option α :=
  match j.getField name with
  | some v => p v
  | none => none

def getOptionField (j : Json) (name : String) (p : Json → Option α) :
    Option (Option α) :=
  match j.getField name with
  | none => some none
  | some Json.null => some none
  | some v => (p v).map some

def getDefaultField (j : Json) (name : String) (p : Json → Option α)
    (dflt : α) : Option α :=
  match j.getField name with
  | none => some dflt
  | some v => p v

theorem parseListAux_parseString_map_str (xs : List String) :
    parseListAux parseString (xs.map Json.str) = some xs := by
  induction xs with
  | nil => rfl
  | cons x xs ih => simp [parseListAux, ih, parseString]

/-! ## DTOs (acme_core/src/dto.rs) -/

def optStringJson : Option String → Json
  | some s => Json.str s
  | none => Json.null

structure ApiMeta where
  terms_of_service : Option String
  website : Option String
  caa_identities : List String
  external_account_required : Bool
deriving DecidableEq, Repr

/-- Serialize for ApiMeta (derived, rename_all = camelCase; no skip
attributes, so the Option fields serialize as null when absent and the
defaulted fields are always written). -/
def ApiMeta.toJson (m : ApiMeta) : Json :=
  Json.obj [("termsOfService", optStringJson m.terms_of_service),
            ("website", optStringJson m.website),
            ("caaIdentities", Json.arr (m.caa_identities.map Json.str)),
            ("externalAccountRequired", Json.bool m.external_account_required)]

/-- Deserialize for ApiMeta: caa_identities has serde(default), and
external_account_required has serde(default = default_false). -/
def ApiMeta.fromJson (j : Json) : Option ApiMeta := do
  let tos ← getOptionField j "termsOfService" parseString
  let website ← getOptionField j "website" parseString
  let caa ← getDefaultField j "caaIdentities" (parseList parseString) []
  let ear ← getDefaultField j "externalAccountRequired" parseBool false
  some ⟨tos, website, caa, ear⟩

structure ApiDirectory where
  new_nonce : Uri
  new_account : Uri
  new_order : Uri
  new_authz : Option Uri
  revoke_cert : Uri
  key_change : Uri
  meta : Option ApiMeta
deriving DecidableEq

/-- Serialize for ApiDirectory (derived, rename_all = camelCase;
new_authz and meta carry skip_serializing_if = Option::is_none, so they
are omitted entirely when absent). -/
def ApiDirectory.toJson (d : ApiDirectory) : Json :=
  Json.obj
    ([("newNonce", d.new_nonce.toJson),
      ("newAccount", d.new_account.toJson),
      ("newOrder", d.new_order.toJson)]
     ++ (match d.new_authz with
         | some u => [("newAuthz", u.toJson)]
         | none => [])
     ++ [("revokeCert", d.revoke_cert.toJson),
         ("keyChange", d.key_change.toJson)]
     ++ (match d.meta with
         | some m => [("meta", m.toJson)]
         | none => []))

def ApiDirectory.fromJson (j : Json) : Option ApiDirectory := do
  let nn ← getReqField j "newNonce" Uri.fromJson
  let na ← getReqField j "newAccount" Uri.fromJson
  let no ← getReqField j "newOrder" Uri.fromJson
  let nz ← getOptionField j "newAuthz" Uri.fromJson
  let rc ← getReqField j "revokeCert" Uri.fromJson
  let kc ← getReqField j "keyChange" Uri.fromJson
  let meta ← getOptionField j "meta" ApiMeta.fromJson
  some ⟨nn, na, no, nz, rc, kc, meta⟩

theorem apiMetaRoundtrip (m : ApiMeta) : ApiMeta.fromJson m.toJson = some m := by
  obtain ⟨tos, website, caa, ear⟩ := m
  cases tos <;> cases website <;>
    simp +decide [ApiMeta.toJson, ApiMeta.fromJson, optStringJson, getOptionField,
      getDefaultField, Json.getField, lookupField, parseString, parseList, parseBool,
      parseListAux_parseString_map_str, bind, Option.bind]

theorem apiDirectoryRoundtrip (d : ApiDirectory) :
    ApiDirectory.fromJson d.toJson = some d := by
  obtain ⟨nn, na, no, nz, rc, kc, meta⟩ := d
  cases nz <;> rcases meta with _ | ⟨tos, website, caa, ear⟩ <;>
    try (cases tos <;> cases website)
  all_goals
    simp +decide [ApiDirectory.toJson, ApiDirectory.fromJson, ApiMeta.toJson,
      ApiMeta.fromJson, getReqField, getOptionField, getDefaultField, Json.getField,
      lookupField, Uri.toJson, Uri.fromJson, Uri.tryFrom_val, optStringJson,
      parseString, parseList, parseBool, parseListAux_parseString_map_str,
      bind, Option.bind]

/-- Serialize for ApiAccountStatus (derived, rename_all = camelCase). -/
inductive ApiAccountStatus where
  | Valid
  | Deactivated
  | Revoked
deriving DecidableEq, Repr

def ApiAccountStatus.toJson : ApiAccountStatus → Json
  | .Valid => Json.str "valid"
  | .Deactivated => Json.str "deactivated"
  | .Revoked => Json.str "revoked"

def ApiAccountStatus.fromJson : Json → Option ApiAccountStatus
  | Json.str "valid" => some .Valid
  | Json.str "deactivated" => some .Deactivated
  | Json.str "revoked" => some .Revoked
  | _ => none

/-- ApiAccount with its external_account_binding type parameter fixed at
(), as the client instantiates it (ApiAccount<()>). -/
structure ApiAccount where
  status : Option ApiAccountStatus
  contact : List String
  terms_of_service_agreed : Option Bool
  external_account_binding : Option Unit
  orders : Option String
deriving DecidableEq, Repr

/-- Default::default() for ApiAccount (derived). -/
def ApiAccount.default : ApiAccount :=
  { status := none, contact := [], terms_of_service_agreed := none,
    external_account_binding := none, orders := none }

/-- ApiAccount::new(mail, tos): contact = vec![mail],
terms_of_service_agreed = Some(tos), rest from Default. -/
def ApiAccount.new (mail : String) (tos : Bool) : ApiAccount :=
  { ApiAccount.default with contact := [mail], terms_of_service_agreed := some tos }

/-- Deserialize for ApiAccount<()> (derived, rename_all = camelCase):
contact is the only required field; Option<()> only ever deserializes
from a missing field or null (serde maps null to None first). -/
def ApiAccount.fromJson (j : Json) : Option ApiAccount := do
  let status ← getOptionField j "status" ApiAccountStatus.fromJson
  let contact ← getReqField j "contact" (parseList parseString)
  let tos ← getOptionField j "termsOfServiceAgreed" parseBool
  let eab ← getOptionField j "externalAccountBinding" (fun _ => none)
  let orders ← getOptionField j "orders" parseString
  some ⟨status, contact, tos, eab, orders⟩

inductive ApiIdentifierType where
  | DNS
deriving DecidableEq, Repr

/-- rename_all = lowercase on ApiIdentifierType. -/
def ApiIdentifierType.toJson : ApiIdentifierType → Json
  | .DNS => Json.str "dns"

def ApiIdentifierType.fromJson : Json → Option ApiIdentifierType
  | Json.str "dns" => some .DNS
  | _ => none

structure ApiIdentifier where
  type_field : ApiIdentifierType
  value : String
deriving DecidableEq, Repr

/-- The type_field field is renamed to "type". -/
def ApiIdentifier.toJson (i : ApiIdentifier) : Json :=
  Json.obj [("type", i.type_field.toJson), ("value", Json.str i.value)]

def ApiIdentifier.fromJson (j : Json) : Option ApiIdentifier := do
  let t ← getReqField j "type" ApiIdentifierType.fromJson
  let v ← getReqField j "value" parseString
  some ⟨t, v⟩

inductive ApiOrderStatus where
  | Pending
  | Ready
  | Processing
  | Valid
  | Invalid
deriving DecidableEq, Repr

def ApiOrderStatus.fromJson : Json → Option ApiOrderStatus
  | Json.str "pending" => some .Pending
  | Json.str "ready" => some .Ready
  | Json.str "processing" => some .Processing
  | Json.str "valid" => some .Valid
  | Json.str "invalid" => some .Invalid
  | _ => none

/-- Models OffsetDateTime of the external time crate by its RFC 3339
rendering; the rfc3339_option serde module parses it from a string. -/
structure OffsetDateTime where
  rfc3339 : String
deriving DecidableEq, Repr

/-- ApiOrder with its error type parameter fixed at (), as the client
instantiates it (ApiOrder<()>). -/
structure ApiOrder where
  status : ApiOrderStatus
  expires : Option OffsetDateTime
  identifiers : List ApiIdentifier
  not_before : Option String
  not_after : Option String
  error : Option Unit
  authorizations : List Uri
  finalize : Uri
  certificate : Option Uri
deriving DecidableEq

/-- The expires field deserializes through time's serde rfc3339_option
module (serde(with = ...) and no serde(default)), so the field is
required: a missing field is a hard error, null gives None, and a string
goes to the external time crate's RFC 3339 parser, modeled as accepting
the rendered form. -/
def parseExpires : Json → Option (Option OffsetDateTime)
  | Json.null => some none
  | Json.str s => some (some ⟨s⟩)
  | _ => none

/-- Deserialize for ApiOrder<()> (derived, rename_all = camelCase):
status, expires (required by its serde(with) attribute), identifiers,
authorizations and finalize are required; the plain Option fields
accept a missing field or null as None. -/
def ApiOrder.fromJson (j : Json) : Option ApiOrder := do
  let status ← getReqField j "status" ApiOrderStatus.fromJson
  let expires ← getReqField j "expires" parseExpires
  let identifiers ← getReqField j "identifiers" (parseList ApiIdentifier.fromJson)
  let nb ← getOptionField j "notBefore" parseString
  let na ← getOptionField j "notAfter" parseString
  let err ← getOptionField j "error" (fun _ => none)
  let auths ← getReqField j "authorizations" (parseList Uri.fromJson)
  let fin ← getReqField j "finalize" Uri.fromJson
  let cert ← getOptionField j "certificate" Uri.fromJson
  some ⟨status, expires, identifiers, nb, na, err, auths, fin, cert⟩

/-! ## API errors (acme_core/src/dto.rs) -/

inductive ApiErrorType where
  | AccountDoesNotExist
  | AlreadyRevoked
  | BadCSR
  | BadNonce
  | BadPublicKey
  | BadRevocationReason
  | BadSignatureAlgorithm
  | CAA
  | Compound
  | Connection
  | DNS
  | ExternalAccountRequired
  | IncorrectResponse
  | InvalidContact
  | Malformed
  | OrderNotReady
  | RateLimited
  | RejectedIdentifier
  | ServerInternal
  | TLS
  | Unauthorized
  | UnsupportedContact
  | UnsupportedIdentifier
  | UserActionRequired
  | Other (inner : String)
deriving DecidableEq, Repr

/-- Deserialize for ApiErrorType: known strings map to the closed
variants, anything else falls back to Other (total, never fails). -/
def ApiErrorType.fromStr (s : String) : ApiErrorType :=
  if s = "accountDoesNotExist" then .AccountDoesNotExist
  else if s = "alreadyRevoked" then .AlreadyRevoked
  else if s = "badCSR" then .BadCSR
  else if s = "badNonce" then .BadNonce
  else if s = "badPublicKey" then .BadPublicKey
  else if s = "badRevocationReason" then .BadRevocationReason
  else if s = "badSignatureAlgorithm" then .BadSignatureAlgorithm
  else if s = "caa" then .CAA
  else if s = "compound" then .Compound
  else if s = "connection" then .Connection
  else if s = "dns" then .DNS
  else if s = "externalAccountRequired" then .ExternalAccountRequired
  else if s = "incorrectResponse" then .IncorrectResponse
  else if s = "invalidContact" then .InvalidContact
  else if s = "malformed" then .Malformed
  else if s = "orderNotReady" then .OrderNotReady
  else if s = "rateLimited" then .RateLimited
  else if s = "rejectedIdentifier" then .RejectedIdentifier
  else if s = "serverInternal" then .ServerInternal
  else if s = "tls" then .TLS
  else if s = "unauthorized" then .Unauthorized
  else if s = "unsupportedContact" then .UnsupportedContact
  else if s = "unsupportedIdentifier" then .UnsupportedIdentifier
  else if s = "userActionRequired" then .UserActionRequired
  else .Other s

def ApiErrorType.fromJson : Json → Option ApiErrorType
  | Json.str s => some (ApiErrorType.fromStr s)
  | _ => none

structure ApiSubproblem where
  type_val : ApiErrorType
  detail : String
  identifier : ApiIdentifier
deriving DecidableEq, Repr

def ApiSubproblem.fromJson (j : Json) : Option ApiSubproblem := do
  let t ← getReqField j "type" ApiErrorType.fromJson
  let d ← getReqField j "detail" parseString
  let i ← getReqField j "identifier" ApiIdentifier.fromJson
  some ⟨t, d, i⟩

/-- ApiError: type (renamed from type_val), detail and subproblems are
all required fields — none carries a serde default. -/
structure ApiError where
  type_val : ApiErrorType
  detail : String
  subproblems : List ApiSubproblem
deriving DecidableEq, Repr

def ApiError.fromJson (j : Json) : Option ApiError := do
  let t ← getReqField j "type" ApiErrorType.fromJson
  let d ← getReqField j "detail" parseString
  let sub ← getReqField j "subproblems" (parseList ApiSubproblem.fromJson)
  some ⟨t, d, sub⟩

/-! ## Crypto (async_acme/src/crypto/mod.rs) -/

inductive XY where
  | X
  | Y
deriving DecidableEq, Repr

inductive RingCryptoError where
  | Ring
  | InvalidKey
  | InvalidPublicKeyLenght (len : Nat)
  | WrongCompressionFormat (b : Nat)
  | InvalidBase64Len (xy : XY) (len : Nat)
deriving DecidableEq, Repr

/-- RingPublicKey: the x/y buffers are 64 bytes of base64url ASCII in the
source ([u8; 64]); we model them as the strings they spell. -/
structure RingPublicKey where
  x : String
  y : String
deriving DecidableEq, Repr

/-- Serialize for RingPublicKey: fields crv, kty, x, y in this order. -/
def RingPublicKey.toJson (pk : RingPublicKey) : Json :=
  Json.obj [("crv", Json.str "P-384"), ("kty", Json.str "EC"),
            ("x", Json.str pk.x), ("y", Json.str pk.y)]

/-- RingKeyPair::export_public_key over the raw uncompressed public key
bytes that ring exposes: require 97 bytes, require leading byte 0x04,
split into the two 48-byte coordinates, base64url-encode each and require
64 output characters. -/
def RingKeyPair.export_public_key (public : List Nat) :
    Except RingCryptoError RingPublicKey :=
  if public.length = 97 then
    match public with
    | [] => Except.error (RingCryptoError.InvalidPublicKeyLenght 0)
    | b :: _ =>
      if b = 4 then
        let xb := base64UrlNoPad ((public.take 49).drop 1)
        let yb := base64UrlNoPad (public.drop 49)
        if xb.length = 64 then
          if yb.length = 64 then Except.ok { x := xb, y := yb }
          else Except.error (RingCryptoError.InvalidBase64Len XY.Y yb.length)
        else Except.error (RingCryptoError.InvalidBase64Len XY.X xb.length)
      else Except.error (RingCryptoError.WrongCompressionFormat b)
  else Except.error (RingCryptoError.InvalidPublicKeyLenght public.length)

/-- The key pair as the signing layer sees it: the private scalar never
leaves the crypto component, so only the exported public key and the
fixed algorithm name appear in the model. -/
structure RingKeyPair where
  public_key : RingPublicKey
deriving DecidableEq, Repr

/-- KeyPair::algorithm for RingKeyPair. -/
def RingKeyPair.algorithm (_ : RingKeyPair) : String := "ES384"

/-! ## Protected header and JWS construction (async_acme/src/directory.rs) -/

inductive AccountKey where
  | JWK (public_key : RingPublicKey)
  | KID (kid : Uri)
deriving DecidableEq

structure Protected where
  alg : String
  nonce : String
  url : Uri
  jwk : AccountKey
deriving DecidableEq

/-- Serialize for Protected: fields alg, nonce, url in this order,
followed by jwk (embedded public key) or kid depending on the
AccountKey variant. -/
def Protected.toJson (p : Protected) : Json :=
  Json.obj
    ([("alg", Json.str p.alg), ("nonce", Json.str p.nonce),
      ("url", Json.str p.url.val)]
     ++ (match p.jwk with
         | AccountKey.JWK pk => [("jwk", pk.toJson)]
         | AccountKey.KID kid => [("kid", Json.str kid.val)]))

/-- Directory::serialize_and_base64_encode: serde_json::to_vec then
base64::encode_config(_, URL_SAFE_NO_PAD). -/
def serialize_and_base64_encode (j : Json) : String :=
  base64UrlNoPad (utf8Bytes j.render)

/-- The Protected value Directory::protect builds: alg from the key
pair, the nonce fetched from the server, the target url, and KID when a
kid is supplied, JWK of the key pair's public key otherwise. -/
def Directory.protectHeader (url : Uri) (key_pair : RingKeyPair)
    (kid : Option Uri) (nonce : String) : Protected :=
  { alg := key_pair.algorithm
    nonce := nonce
    url := url
    jwk := match kid with
           | some kid => AccountKey.KID kid
           | none => AccountKey.JWK key_pair.public_key }

/-- Directory::protect: the serialized, base64url-encoded protected
header string. -/
def Directory.protect (url : Uri) (key_pair : RingKeyPair)
    (kid : Option Uri) (nonce : String) : String :=
  serialize_and_base64_encode (Directory.protectHeader url key_pair kid nonce).toJson

inductive Payload where
  | Post (inner : String)
  | Get
deriving DecidableEq, Repr

/-- From<String> for Payload. -/
def Payload.fromString (inner : String) : Payload := Payload.Post inner

/-- Default for Payload is Payload::Get. -/
def Payload.fromOptionString : Option String → Payload
  | some s => Payload.fromString s
  | none => Payload.Get

/-- Serialize for Payload: a Post payload serializes as its inner
string, a Get payload serializes as the empty string. -/
def Payload.toJson : Payload → Json
  | Payload.Post inner => Json.str inner
  | Payload.Get => Json.str ""

structure SignedRequest where
  protectedHeader : String
  payload : Payload
  signature : String
deriving DecidableEq, Repr

/-- The byte buffer Directory::sign signs: the protected string, one
'.' byte (46), then the Post payload bytes — and nothing after the dot
for a Get payload. -/
def Directory.signBuf (protectedHeader : String) (payload : Payload) : List Nat :=
  utf8Bytes protectedHeader ++ [46]
    ++ (match payload with
        | Payload.Post inner => utf8Bytes inner
        | Payload.Get => [])

/-- Directory::sign: the ECDSA signature over the buffer is produced by
ring (randomized, external); it enters the model as the function sigOf
from buffers to raw signature bytes. -/
def Directory.sign (sigOf : List Nat → List Nat) (protectedHeader : String)
    (payload : Option String) : SignedRequest :=
  let payload := Payload.fromOptionString payload
  let buf := Directory.signBuf protectedHeader payload
  { protectedHeader := protectedHeader
    payload := payload
    signature := base64UrlNoPad (sigOf buf) }

/-! ## Account state and the protect call of each operation
(async_acme/src/directory.rs)

An Account exists only once Directory::new_account has returned: it
holds the kid URI the server assigned via the Location header and the
key pair generated for the account. Each function below is the protect
call the corresponding operation makes, with the nonce (fetched from
the server inside protect) passed explicitly.
-/

structure Account where
  kid : Uri
  key_pair : RingKeyPair
deriving DecidableEq

/-- Directory::new_account: protect(new_account url, key_pair, None). -/
def newAccountProtected (new_account_url : Uri) (key_pair : RingKeyPair)
    (nonce : String) : Protected :=
  Directory.protectHeader new_account_url key_pair none nonce

/-- Account::update: protect(self.kid, self.key_pair, Some(self.kid)). -/
def accountUpdateProtected (acct : Account) (nonce : String) : Protected :=
  Directory.protectHeader acct.kid acct.key_pair (some acct.kid) nonce

/-- Account::new_order: protect(new_order url, self.key_pair, Some(self.kid)). -/
def newOrderProtected (new_order_url : Uri) (acct : Account) (nonce : String) :
    Protected :=
  Directory.protectHeader new_order_url acct.key_pair (some acct.kid) nonce

/-- Order::update: protect(self.location, account.key_pair, Some(account.kid)). -/
def orderUpdateProtected (acct : Account) (location : Uri) (nonce : String) :
    Protected :=
  Directory.protectHeader location acct.key_pair (some acct.kid) nonce

/-- Order::finalize, first request: protect(finalize uri, Some(kid)). -/
def orderFinalizeProtected (acct : Account) (finalize_uri : Uri) (nonce : String) :
    Protected :=
  Directory.protectHeader finalize_uri acct.key_pair (some acct.kid) nonce

/-- Order::finalize, certificate download: protect(certificate uri, Some(kid)). -/
def certificateDownloadProtected (acct : Account) (certificate_uri : Uri)
    (nonce : String) : Protected :=
  Directory.protectHeader certificate_uri acct.key_pair (some acct.kid) nonce

/-- Order::authorization: protect(authorization location, Some(kid)). -/
def authorizationProtected (acct : Account) (location : Uri) (nonce : String) :
    Protected :=
  Directory.protectHeader location acct.key_pair (some acct.kid) nonce

/-- Challenge::validate: protect(challenge url, Some(kid)). -/
def challengeValidateProtected (acct : Account) (challenge_url : Uri)
    (nonce : String) : Protected :=
  Directory.protectHeader challenge_url acct.key_pair (some acct.kid) nonce

/-! ## Transport layer (async_acme/src/server.rs) -/

inductive HyperAcmeServerError where
  | NoConnector
  | Nonce (v : Option String)
  | Hyper
  | Http
  | Json
  | ApiError (e : ApiError)
  | InvalidHeader (name : String) (v : Option String)
  | InvalidUri
deriving DecidableEq, Repr

/-- One HTTP response as the client consumes it: the success bit of the
status, the body (already at the JSON-tree level of the serde data
model; a body that is not the expected shape surfaces as the Json error
exactly as a serde_json failure does), and the raw location header. -/
structure Response where
  success : Bool
  body : Json
  location : Option String

/-- HyperAcmeServer::handle_if_error: 2xx passes; otherwise the body is
deserialized as ApiError — a body that does not deserialize is a Json
error, one that does becomes the ApiError variant. -/
def handle_if_error (resp : Response) : Except HyperAcmeServerError Unit :=
  if resp.success then Except.ok ()
  else
    match ApiError.fromJson resp.body with
    | none => Except.error HyperAcmeServerError.Json
    | some e => Except.error (HyperAcmeServerError.ApiError e)

/-- HyperAcmeServer::extract_location: a missing location header is Ok
None; a present header that does not parse as a URI is
InvalidHeader("location", Some(value)). -/
def extract_location (location : Option String) :
    Except HyperAcmeServerError (Option Uri) :=
  match location with
  | none => Except.ok none
  | some s =>
      match Uri.tryFrom s with
      | some u => Except.ok (some u)
      | none => Except.error (HyperAcmeServerError.InvalidHeader "location" (some s))

/-- HyperAcmeServer::post: check the status, extract the location
header, then deserialize the body (in that order, as the source does). -/
def HyperAcmeServer.post (parse : Json → Option R) (resp : Response) :
    Except HyperAcmeServerError (R × Option Uri) := do
  let _ ← handle_if_error resp
  let loc ← extract_location resp.location
  match parse resp.body with
  | none => Except.error HyperAcmeServerError.Json
  | some r => Except.ok (r, loc)

/-- HyperAcmeServer::new_account: post against the directory's
new_account URL; a missing Location header is
InvalidHeader("location", None). -/
def HyperAcmeServer.new_account (resp : Response) :
    Except HyperAcmeServerError (ApiAccount × Uri) :=
  match HyperAcmeServer.post ApiAccount.fromJson resp with
  | Except.error e => Except.error e
  | Except.ok (account, some kid) => Except.ok (account, kid)
  | Except.ok (_, none) =>
      Except.error (HyperAcmeServerError.InvalidHeader "location" none)

/-- HyperAcmeServer::new_order: post against the directory's new_order
URL; a missing Location header is InvalidHeader("location", None). -/
def HyperAcmeServer.new_order (resp : Response) :
    Except HyperAcmeServerError (ApiOrder × Uri) :=
  match HyperAcmeServer.post ApiOrder.fromJson resp with
  | Except.error e => Except.error e
  | Except.ok (order, some location) => Except.ok (order, location)
  | Except.ok (_, none) =>
      Except.error (HyperAcmeServerError.InvalidHeader "location" none)

/-! ## Panic model for the unwraps in directory.rs -/

/-- The result of a Rust code path that may panic. -/
inductive Outcome (α : Type) where
  | ok (a : α)
  | panics
deriving DecidableEq, Repr

/-- Order::finalize after the finalize response has replaced the order:
the source runs inner.certificate.as_ref().unwrap(), which panics when
the returned order carries no certificate URI. -/
def Order.finalize_certificate_step (order : ApiOrder) : Outcome Uri :=
  match order.certificate with
  | some c => Outcome.ok c
  | none => Outcome.panics

/-- Challenge::validate: the source runs
Uri::try_from(&*self.inner.url).unwrap(), which panics when the
challenge's url field is not a valid URI. -/
def Challenge.validate_uri_step (url : String) : Outcome Uri :=
  match Uri.tryFrom url with
  | some u => Outcome.ok u
  | none => Outcome.panics

/-- Directory::new_account builds the request body as
ApiAccount::new(format!("mailto:{}", mail), true). -/
def Directory.new_account_body (mail : String) : ApiAccount :=
  ApiAccount.new ("mailto:" ++ mail) true

/-! ## Concrete values for witnesses and counterexamples -/

def exampleUrl : Uri := ⟨"https://example.com/acme/new-order", by decide⟩

def exampleKid : Uri := ⟨"https://example.com/acme/acct/1", by decide⟩

/-- An ApiOrder as a finalize response may return it: no certificate URI. -/
def orderWithoutCertificate : ApiOrder :=
  { status := ApiOrderStatus.Valid
    expires := none
    identifiers := [⟨ApiIdentifierType.DNS, "example.com"⟩]
    not_before := none
    not_after := none
    error := none
    authorizations := []
    finalize := ⟨"https://example.com/acme/finalize/1", by decide⟩
    certificate := none }

def badNonceBody : Json :=
  Json.obj [("type", Json.str "badNonce"),
            ("detail", Json.str "nonce is stale"),
            ("subproblems", Json.arr [])]

def badNonceResponse : Response :=
  { success := false, body := badNonceBody, location := none }

/-- An error body without the subproblems member, as real ACME servers
commonly send it. -/
def errorBodyNoSubproblems : Json :=
  Json.obj [("type", Json.str "urn:ietf:params:acme:error:malformed"),
            ("detail", Json.str "bad request")]

def accountBody : Json :=
  Json.obj [("contact", Json.arr [Json.str "mailto:a@b.com"])]

def parsedAccount : ApiAccount :=
  { status := none, contact := ["mailto:a@b.com"],
    terms_of_service_agreed := none, external_account_binding := none,
    orders := none }

def orderBody : Json :=
  Json.obj [("status", Json.str "pending"),
            ("expires", Json.null),
            ("identifiers",
             Json.arr [Json.obj [("type", Json.str "dns"),
                                 ("value", Json.str "example.com")]]),
            ("authorizations", Json.arr [Json.str "https://example.com/acme/authz/1"]),
            ("finalize", Json.str "https://example.com/acme/finalize/1")]

def parsedOrder : ApiOrder :=
  { status := ApiOrderStatus.Pending
    expires := none
    identifiers := [⟨ApiIdentifierType.DNS, "example.com"⟩]
    not_before := none
    not_after := none
    error := none
    authorizations := [⟨"https://example.com/acme/authz/1", by decide⟩]
    finalize := ⟨"https://example.com/acme/finalize/1", by decide⟩
    certificate := none }

def exampleOrderLoc : Uri := ⟨"https://example.com/acme/order/7", by decide⟩

def accountRespNoLoc : Response :=
  { success := true, body := accountBody, location := none }

def accountRespLoc : Response :=
  { success := true, body := accountBody,
    location := some "https://example.com/acme/acct/1" }

def orderRespNoLoc : Response :=
  { success := true, body := orderBody, location := none }

def orderRespLoc : Response :=
  { success := true, body := orderBody,
    location := some "https://example.com/acme/order/7" }

/-! ## Claims -/

/-- C1: the protected header of the first signed request — the one
Directory::new_account sends, before the server has assigned an
identifier — embeds the public key as a jwk field, and the protected
header of every signed request constructed after new_account returns
(Account::update, Account::new_order, Order::update, Order::finalize,
Order::authorization, Challenge::validate, certificate download)
carries the server-assigned kid URI and never a jwk field again. -/
theorem claim_C1 (new_account_url new_order_url location finalize_uri
      certificate_uri challenge_url : Uri) (acct : Account)
    (key_pair : RingKeyPair) (nonce : String) :
    (newAccountProtected new_account_url key_pair nonce).jwk
        = AccountKey.JWK key_pair.public_key
    ∧ (newAccountProtected new_account_url key_pair nonce).toJson.keys
        = ["alg", "nonce", "url", "jwk"]
    ∧ (accountUpdateProtected acct nonce).jwk = AccountKey.KID acct.kid
    ∧ (newOrderProtected new_order_url acct nonce).jwk = AccountKey.KID acct.kid
    ∧ (orderUpdateProtected acct location nonce).jwk = AccountKey.KID acct.kid
    ∧ (orderFinalizeProtected acct finalize_uri nonce).jwk = AccountKey.KID acct.kid
    ∧ (certificateDownloadProtected acct certificate_uri nonce).jwk
        = AccountKey.KID acct.kid
    ∧ (authorizationProtected acct location nonce).jwk = AccountKey.KID acct.kid
    ∧ (challengeValidateProtected acct challenge_url nonce).jwk
        = AccountKey.KID acct.kid
    ∧ (∀ (url kid : Uri) (kp : RingKeyPair) (n : String),
        (Directory.protectHeader url kp (some kid) n).toJson.keys
          = ["alg", "nonce", "url", "kid"]) :=
  ⟨rfl, rfl, rfl, rfl, rfl, rfl, rfl, rfl, rfl, fun _ _ _ _ => rfl⟩

/-- C3: the code panics rather than returning a typed error on these
externally-triggered conditions — Order::finalize unwraps the absent
certificate URI of the finalize response, and Challenge::validate
unwraps Uri::try_from of the challenge's url field (both sites carry a
"todo: remove unwrap" comment in the source). -/
theorem claim_C3 :
    Order.finalize_certificate_step orderWithoutCertificate = Outcome.panics
    ∧ Challenge.validate_uri_step "" = Outcome.panics :=
  ⟨rfl, rfl⟩

/-- C4 (as stated): serializing the protected header produces compact
JSON whose fields appear in the order alg, nonce, kid-or-jwk, url. This
is false: the code writes url before the kid/jwk field. -/
theorem claim_C4_counterexample :
    (Protected.toJson
      { alg := "ES384", nonce := "abc", url := exampleUrl,
        jwk := AccountKey.KID exampleKid }).keys
      ≠ ["alg", "nonce", "kid", "url"] := by decide

/-- C4 (amended): serializing the protected header produces compact
JSON whose fields appear in the order alg, then nonce, then url, then
kid or jwk, and the result is base64url-no-pad encoded. -/
theorem claim_C4 (key_pair : RingKeyPair) (kid : Option Uri) (url : Uri)
    (nonce : String) :
    (Directory.protectHeader url key_pair kid nonce).toJson.keys
      = ["alg", "nonce", "url",
         match kid with
         | some _ => "kid"
         | none => "jwk"]
    ∧ Directory.protect url key_pair kid nonce
      = base64UrlNoPad
          (utf8Bytes (Directory.protectHeader url key_pair kid nonce).toJson.render) := by
  cases kid <;> exact ⟨rfl, rfl⟩

/-- C5: for POST-as-GET signed requests the serialized payload field is
the empty string and the signed buffer is exactly the protected header
followed by a single dot; for POST requests with a body the signed
buffer is protected, dot, then the base64 payload. -/
theorem claim_C5 (sigOf : List Nat → List Nat) (protectedHeader p : String) :
    (Directory.sign sigOf protectedHeader none).payload.toJson = Json.str ""
    ∧ (Directory.sign sigOf protectedHeader none).payload = Payload.Get
    ∧ Directory.signBuf protectedHeader Payload.Get
        = utf8Bytes protectedHeader ++ [46]
    ∧ Directory.signBuf protectedHeader (Payload.Post p)
        = utf8Bytes protectedHeader ++ [46] ++ utf8Bytes p
    ∧ (Directory.sign sigOf protectedHeader (some p)).payload = Payload.Post p := by
  refine ⟨rfl, rfl, ?_, ?_, rfl⟩ <;> simp [Directory.signBuf]

/-- C10: for every mail string, Directory::new_account sends an
ApiAccount body whose contact is exactly ["mailto:" ++ mail], whose
terms_of_service_agreed is Some(true) — the true is hardcoded, the
caller cannot register without agreeing — and whose remaining fields
are all unset. -/
theorem claim_C10 (mail : String) :
    Directory.new_account_body mail
      = { status := none, contact := ["mailto:" ++ mail],
          terms_of_service_agreed := some true,
          external_account_binding := none, orders := none } := rfl

/-- C2 (as stated): a badNonce rejection triggers one automatic retry
with a fresh nonce and success is returned to the caller. This is
false: the response pipeline surfaces the badNonce ApiError to the
caller exactly like every other API error — handle_if_error has no
retry branch and each operation consumes a single response. -/
theorem claim_C2_counterexample :
    HyperAcmeServer.new_account badNonceResponse
      = Except.error (HyperAcmeServerError.ApiError
          { type_val := ApiErrorType.BadNonce, detail := "nonce is stale",
            subproblems := [] }) := rfl

/-- C2 (amended): every API error of every type, badNonce included, is
returned to the caller unchanged; the client performs no automatic
retry. -/
theorem claim_C2 (resp : Response) (e : ApiError) (hs : resp.success = false)
    (hp : ApiError.fromJson resp.body = some e) :
    handle_if_error resp = Except.error (HyperAcmeServerError.ApiError e)
    ∧ HyperAcmeServer.new_account resp
        = Except.error (HyperAcmeServerError.ApiError e) := by
  have h1 : handle_if_error resp = Except.error (HyperAcmeServerError.ApiError e) := by
    simp [handle_if_error, hs, hp]
  refine ⟨h1, ?_⟩
  simp [HyperAcmeServer.new_account, HyperAcmeServer.post, h1, bind, Except.bind]

theorem claim_C2_witness :
    handle_if_error badNonceResponse
      = Except.error (HyperAcmeServerError.ApiError
          { type_val := ApiErrorType.BadNonce, detail := "nonce is stale",
            subproblems := [] })
    ∧ HyperAcmeServer.new_account badNonceResponse
      = Except.error (HyperAcmeServerError.ApiError
          { type_val := ApiErrorType.BadNonce, detail := "nonce is stale",
            subproblems := [] }) :=
  claim_C2 badNonceResponse
    { type_val := ApiErrorType.BadNonce, detail := "nonce is stale",
      subproblems := [] } rfl rfl

/-- C6: export_public_key either returns a JWK whose x and y fields are
each exactly 64 base64url characters, or fails with
WrongCompressionFormat carrying the offending leading byte, or with
InvalidPublicKeyLenght carrying the length when the raw key is not 97
bytes; no other width is ever returned. -/
theorem claim_C6 (public : List Nat) :
    (∃ pk, RingKeyPair.export_public_key public = Except.ok pk
        ∧ pk.x.length = 64 ∧ pk.y.length = 64)
    ∨ (public.length ≠ 97
        ∧ RingKeyPair.export_public_key public
            = Except.error (RingCryptoError.InvalidPublicKeyLenght public.length))
    ∨ (∃ b, public.head? = some b ∧ b ≠ 4
        ∧ RingKeyPair.export_public_key public
            = Except.error (RingCryptoError.WrongCompressionFormat b)) := by
  by_cases h97 : public.length = 97
  · cases public with
    | nil => simp at h97
    | cons b rest =>
        have hlen : rest.length = 96 := by
          simpa using h97
        by_cases hb : b = 4
        · left
          have hx : (rest.take 48).length = 48 := by
            simp [List.length_take, hlen]
          have hy : (rest.drop 48).length = 48 := by
            simp [List.length_drop, hlen]
          have hxb : (base64UrlNoPad (rest.take 48)).length = 64 := by
            have h := b64Chars_length_of_mul3 16 (rest.take 48) (by rw [hx])
            simpa [base64UrlNoPad] using h
          have hyb : (base64UrlNoPad (rest.drop 48)).length = 64 := by
            have h := b64Chars_length_of_mul3 16 (rest.drop 48) (by rw [hy])
            simpa [base64UrlNoPad] using h
          refine ⟨⟨base64UrlNoPad (rest.take 48), base64UrlNoPad (rest.drop 48)⟩,
                  ?_, hxb, hyb⟩
          simp [RingKeyPair.export_public_key, hlen, hb, hxb, hyb]
        · right; right
          refine ⟨b, rfl, hb, ?_⟩
          simp [RingKeyPair.export_public_key, hlen, hb]
  · right; left
    refine ⟨h97, ?_⟩
    cases public with
    | nil => simp [RingKeyPair.export_public_key]
    | cons b rest =>
        have h96 : rest.length ≠ 96 := by
          intro h
          exact h97 (by simp [h])
        simp [RingKeyPair.export_public_key, h96]

/-- C7: a server response to new_account or new_order without a
Location header yields the distinct protocol error
InvalidHeader("location", None) — the account or order is never
returned with an absent identifier; when the header is present and a
valid URI, the parsed body is returned paired with that URI. -/
theorem claim_C7 :
    (∀ (resp : Response) (account : ApiAccount),
        resp.success = true → ApiAccount.fromJson resp.body = some account →
        (resp.location = none →
          HyperAcmeServer.new_account resp
            = Except.error (HyperAcmeServerError.InvalidHeader "location" none))
        ∧ (∀ s u, resp.location = some s → Uri.tryFrom s = some u →
            HyperAcmeServer.new_account resp = Except.ok (account, u)))
    ∧ (∀ (resp : Response) (order : ApiOrder),
        resp.success = true → ApiOrder.fromJson resp.body = some order →
        (resp.location = none →
          HyperAcmeServer.new_order resp
            = Except.error (HyperAcmeServerError.InvalidHeader "location" none))
        ∧ (∀ s u, resp.location = some s → Uri.tryFrom s = some u →
            HyperAcmeServer.new_order resp = Except.ok (order, u))) := by
  constructor
  · intro resp account hs hp
    constructor
    · intro hloc
      simp [HyperAcmeServer.new_account, HyperAcmeServer.post, handle_if_error,
        extract_location, hs, hp, hloc, bind, Except.bind]
    · intro s u hloc hu
      simp [HyperAcmeServer.new_account, HyperAcmeServer.post, handle_if_error,
        extract_location, hs, hp, hloc, hu, bind, Except.bind]
  · intro resp order hs hp
    constructor
    · intro hloc
      simp [HyperAcmeServer.new_order, HyperAcmeServer.post, handle_if_error,
        extract_location, hs, hp, hloc, bind, Except.bind]
    · intro s u hloc hu
      simp [HyperAcmeServer.new_order, HyperAcmeServer.post, handle_if_error,
        extract_location, hs, hp, hloc, hu, bind, Except.bind]

theorem claim_C7_witness :
    HyperAcmeServer.new_account accountRespNoLoc
      = Except.error (HyperAcmeServerError.InvalidHeader "location" none)
    ∧ HyperAcmeServer.new_account accountRespLoc
      = Except.ok (parsedAccount, exampleKid)
    ∧ HyperAcmeServer.new_order orderRespNoLoc
      = Except.error (HyperAcmeServerError.InvalidHeader "location" none)
    ∧ HyperAcmeServer.new_order orderRespLoc
      = Except.ok (parsedOrder, exampleOrderLoc) :=
  ⟨(claim_C7.1 accountRespNoLoc parsedAccount rfl rfl).1 rfl,
   (claim_C7.1 accountRespLoc parsedAccount rfl rfl).2
      "https://example.com/acme/acct/1" exampleKid rfl rfl,
   (claim_C7.2 orderRespNoLoc parsedOrder rfl rfl).1 rfl,
   (claim_C7.2 orderRespLoc parsedOrder rfl rfl).2
      "https://example.com/acme/order/7" exampleOrderLoc rfl rfl⟩

/-- C8: deserializing the JSON produced by serializing any ApiDirectory
value — every combination of present and absent newAuthz and meta, and
every ApiMeta with its defaulted caaIdentities and
externalAccountRequired — yields the original value. -/
theorem claim_C8 (d : ApiDirectory) :
    ApiDirectory.fromJson d.toJson = some d :=
  apiDirectoryRoundtrip d

/-- ApiError deserialization fails whenever the detail or subproblems
member is missing (both are required fields with no serde default). -/
theorem ApiError.fromJson_none_of_missing (j : Json)
    (h : j.getField "detail" = none ∨ j.getField "subproblems" = none) :
    ApiError.fromJson j = none := by
  rcases h with h | h <;>
    cases ht : j.getField "type" with
    | none =>
        simp [ApiError.fromJson, getReqField, ht, bind, Option.bind]
    | some v =>
        cases hv : ApiErrorType.fromJson v with
        | none => simp [ApiError.fromJson, getReqField, ht, hv, bind, Option.bind]
        | some t =>
            cases hd : j.getField "detail" with
            | none => simp [ApiError.fromJson, getReqField, ht, hv, hd, bind, Option.bind]
            | some dv =>
                cases hs : parseString dv with
                | none =>
                    simp [ApiError.fromJson, getReqField, ht, hv, hd, hs, bind, Option.bind]
                | some d =>
                    first
                    | (exact absurd (h.symm.trans hd) (by simp))
                    | simp [ApiError.fromJson, getReqField, ht, hv, hd, hs, h,
                        bind, Option.bind]

/-- C9: a non-2xx response whose JSON body lacks the subproblems array
or the detail string surfaces as a JSON parse error, not as a typed
ApiError; the ApiError variant is produced only when type, detail and
subproblems are all present at once. -/
theorem claim_C9 (resp : Response) (hs : resp.success = false)
    (hmiss : resp.body.getField "subproblems" = none
      ∨ resp.body.getField "detail" = none) :
    handle_if_error resp = Except.error HyperAcmeServerError.Json
    ∧ ∀ (j : Json) (e : ApiError), ApiError.fromJson j = some e →
        (∃ v, j.getField "type" = some v)
        ∧ (∃ v, j.getField "detail" = some v)
        ∧ (∃ v, j.getField "subproblems" = some v) := by
  constructor
  · have hnone : ApiError.fromJson resp.body = none :=
      ApiError.fromJson_none_of_missing resp.body (hmiss.symm)
    simp [handle_if_error, hs, hnone]
  · intro j e he
    refine ⟨?_, ?_, ?_⟩
    · cases ht : j.getField "type" with
      | some v => exact ⟨v, rfl⟩
      | none => simp [ApiError.fromJson, getReqField, ht, bind, Option.bind] at he
    · cases hd : j.getField "detail" with
      | some v => exact ⟨v, rfl⟩
      | none =>
          have := ApiError.fromJson_none_of_missing j (Or.inl hd)
          rw [this] at he; exact absurd he (by simp)
    · cases hsub : j.getField "subproblems" with
      | some v => exact ⟨v, rfl⟩
      | none =>
          have := ApiError.fromJson_none_of_missing j (Or.inr hsub)
          rw [this] at he; exact absurd he (by simp)

theorem claim_C9_witness :
    handle_if_error { success := false, body := errorBodyNoSubproblems, location := none }
      = Except.error HyperAcmeServerError.Json
    ∧ ((∃ v, badNonceBody.getField "type" = some v)
        ∧ (∃ v, badNonceBody.getField "detail" = some v)
        ∧ (∃ v, badNonceBody.getField "subproblems" = some v)) :=
  ⟨(claim_C9 { success := false, body := errorBodyNoSubproblems, location := none }
      rfl (Or.inl rfl)).1,
   (claim_C9 { success := false, body := errorBodyNoSubproblems, location := none }
      rfl (Or.inl rfl)).2 badNonceBody
      { type_val := ApiErrorType.BadNonce, detail := "nonce is stale",
        subproblems := [] } rfl⟩

end AsyncAcme
